import Mathlib

/-!
Verification development for the schedule LINE-bot core
(`database.py`, `reminder.py`).

Shallow embedding conventions:
* Timestamps are rationals, measured in minutes (SQLite stores ISO-format
  strings whose lexicographic order agrees with chronological order for a
  fixed timezone; `(event_time - now).total_seconds() / 60` is the exact
  rational minute difference).
* The SQLite table is a list of rows plus the AUTOINCREMENT counter.
* Each Python function over the table becomes a pure Lean function on `DB`.
* The LINE push call is abstracted by a `sendOk : Nat → Bool` oracle keyed
  by schedule id: `sendOk i = false` models `push_message` raising for that
  reminder, in which case the `try`/`except` in `_check_and_send_reminders`
  skips `mark_as_notified` for that item and continues with the next one.
-/

/-- The three reminder thresholds. -/
inductive ReminderType where
  | oneDay
  | oneHour
  | fifteenMin
deriving DecidableEq, Repr

/-- The `reminder_type` string attached to a reminder dict by
`get_schedules_for_reminder`. -/
def ReminderType.toStr : ReminderType → String
  | .oneDay => "1day"
  | .oneHour => "1hour"
  | .fifteenMin => "15min"

/-- One row of the `schedules` table (`init_database` in `database.py`). -/
structure ScheduleRow where
  id : Nat
  user_id : String
  title : String
  event_time : ℚ
  created_at : ℚ
  is_notified_1day : Bool
  is_notified_1hour : Bool
  is_notified_15min : Bool
  is_deleted : Bool
deriving DecidableEq, Repr

/-- The notification flag of a row for a given threshold. -/
def ScheduleRow.flagOf (r : ScheduleRow) : ReminderType → Bool
  | .oneDay => r.is_notified_1day
  | .oneHour => r.is_notified_1hour
  | .fifteenMin => r.is_notified_15min

/-- The database state: the `schedules` table plus the AUTOINCREMENT counter. -/
structure DB where
  rows : List ScheduleRow
  next_id : Nat
deriving DecidableEq, Repr

/-- The per-row threshold logic of `get_schedules_for_reminder`
(`database.py` lines 198-221): `time_diff` is the minutes until the event;
the `if`/`elif` chain checks 1day, then 1hour, then 15min, each guarded by
its unset flag and its inclusive window. -/
def evalRow (now : ℚ) (r : ScheduleRow) : Option ReminderType :=
  let time_diff := r.event_time - now
  if !r.is_notified_1day && (decide (1410 ≤ time_diff) && decide (time_diff ≤ 1470)) then
    some .oneDay
  else if !r.is_notified_1hour && (decide (55 ≤ time_diff) && decide (time_diff ≤ 65)) then
    some .oneHour
  else if !r.is_notified_15min && (decide (13 ≤ time_diff) && decide (time_diff ≤ 17)) then
    some .fifteenMin
  else
    none

/-- The rows scanned by `get_schedules_for_reminder`:
`WHERE is_deleted = 0 AND event_time > now ORDER BY event_time`. -/
def candidateRows (db : DB) (now : ℚ) : List ScheduleRow :=
  (db.rows.filter (fun r => !r.is_deleted && decide (now < r.event_time))).mergeSort
    (fun a b => decide (a.event_time ≤ b.event_time))

/-- Function `get_schedules_for_reminder` (`database.py` lines 181-223): scan the
candidate rows and keep, for each row, the first due threshold (if any),
paired with the row. -/
def get_schedules_for_reminder (db : DB) (now : ℚ) : List (ScheduleRow × ReminderType) :=
  (candidateRows db now).filterMap (fun r => (evalRow now r).map (fun t => (r, t)))

/-- The dict returned per row by `get_schedules` (only these four columns
are selected). -/
structure ScheduleEntry where
  id : Nat
  title : String
  event_time : ℚ
  created_at : ℚ
deriving DecidableEq, Repr

/-- The WHERE clause of `get_schedules`: owner match, not deleted, and the
optional inclusive window bounds (`event_time >= start`, `event_time <= end`;
an omitted bound adds no condition). -/
def inWindow (uid : String) (start_time end_time : Option ℚ) (r : ScheduleRow) : Bool :=
  r.user_id == uid && !r.is_deleted &&
    (match start_time with
     | none => true
     | some s => decide (s ≤ r.event_time)) &&
    (match end_time with
     | none => true
     | some e => decide (r.event_time ≤ e))

/-- The rows matching the WHERE clause of `get_schedules`. -/
def windowRows (db : DB) (uid : String) (start_time end_time : Option ℚ) : List ScheduleRow :=
  db.rows.filter (inWindow uid start_time end_time)

/-- The matching rows in the `ORDER BY event_time ASC` order. -/
def sortedWindowRows (db : DB) (uid : String) (start_time end_time : Option ℚ) :
    List ScheduleRow :=
  (windowRows db uid start_time end_time).mergeSort
    (fun a b => decide (a.event_time ≤ b.event_time))

/-- Function `get_schedules` (`database.py` lines 97-131): filter, order by
`event_time` ascending, apply `LIMIT limit`, and project each row to the
four selected columns. -/
def get_schedules (db : DB) (uid : String) (start_time end_time : Option ℚ) (limit : Nat) :
    List ScheduleEntry :=
  ((sortedWindowRows db uid start_time end_time).take limit).map
    (fun r => { id := r.id, title := r.title, event_time := r.event_time,
                created_at := r.created_at })

/-- The spec's `listByWindow`: `get_schedules` at its default `limit=50`. -/
def listByWindow (db : DB) (uid : String) (start_time end_time : Option ℚ) :
    List ScheduleEntry :=
  get_schedules db uid start_time end_time 50

/-- Function `add_schedule` (`database.py` lines 58-95).  First the explicit
duplicate check (`is_deleted = 0` only); then the INSERT, which hits the
table-level `UNIQUE(user_id, event_time, title)` constraint — that
constraint is over all rows, soft-deleted ones included, and a violation
raises `sqlite3.IntegrityError`, returned as `(False, None, '行程已存在')`. -/
def add_schedule (db : DB) (uid title : String) (event_time now : ℚ) :
    (Bool × Option Nat × String) × DB :=
  if db.rows.any (fun r =>
      r.user_id == uid && decide (r.event_time = event_time) && r.title == title &&
        !r.is_deleted) then
    ((false, none, "這個行程已經存在了"), db)
  else if db.rows.any (fun r =>
      r.user_id == uid && decide (r.event_time = event_time) && r.title == title) then
    ((false, none, "行程已存在"), db)
  else
    let newRow : ScheduleRow :=
      { id := db.next_id, user_id := uid, title := title,
        event_time := event_time, created_at := now,
        is_notified_1day := false, is_notified_1hour := false,
        is_notified_15min := false, is_deleted := false }
    ((true, some db.next_id, "新增成功"),
      { rows := db.rows ++ [newRow], next_id := db.next_id + 1 })

/-- The WHERE clause of the soft-delete UPDATE:
`id = ? AND user_id = ? AND is_deleted = 0`. -/
def delMatch (sid : Nat) (uid : String) (r : ScheduleRow) : Bool :=
  r.id == sid && r.user_id == uid && !r.is_deleted

/-- The effect of the soft-delete UPDATE on one row. -/
def delRow (sid : Nat) (uid : String) (r : ScheduleRow) : ScheduleRow :=
  if delMatch sid uid r then { r with is_deleted := true } else r

/-- Function `delete_schedule` (`database.py` lines 160-179): set `is_deleted = 1`
on every row matching the WHERE clause; success iff `rowcount > 0`. -/
def delete_schedule (db : DB) (sid : Nat) (uid : String) : (Bool × String) × DB :=
  if db.rows.any (delMatch sid uid) then
    ((true, "刪除成功"), { db with rows := db.rows.map (delRow sid uid) })
  else
    ((false, "找不到這個行程"), db)

/-- Set the notification flag for a threshold on a row. -/
def setFlag (t : ReminderType) (r : ScheduleRow) : ScheduleRow :=
  match t with
  | .oneDay => { r with is_notified_1day := true }
  | .oneHour => { r with is_notified_1hour := true }
  | .fifteenMin => { r with is_notified_15min := true }

/-- The `column_map` dict of `mark_as_notified`: maps the reminder-type
string to the flag column, `none` for any other string. -/
def column_map (rtype : String) : Option ReminderType :=
  if rtype == "1day" then some .oneDay
  else if rtype == "1hour" then some .oneHour
  else if rtype == "15min" then some .fifteenMin
  else none

/-- The effect of the UPDATE in `mark_as_notified` on one row. -/
def markRow (sid : Nat) (t : ReminderType) (r : ScheduleRow) : ScheduleRow :=
  if r.id == sid then setFlag t r else r

/-- Function `mark_as_notified` (`database.py` lines 225-243): look the type string
up in `column_map`; if present, set that column to 1 on every row with the
given id (no owner or deletion check); otherwise do nothing. -/
def mark_as_notified (db : DB) (sid : Nat) (rtype : String) : DB :=
  match column_map rtype with
  | some t => { db with rows := db.rows.map (markRow sid t) }
  | none => db

/-- One iteration of the per-reminder loop body in
`_check_and_send_reminders` (`reminder.py` lines 65-77): if the push for
this reminder succeeds, mark it notified; if `_send_push_message` raises,
the `except` swallows the error and `mark_as_notified` is skipped. -/
def cycleStep (sendOk : Nat → Bool) (acc : DB) (p : ScheduleRow × ReminderType) : DB :=
  if sendOk p.1.id then mark_as_notified acc p.1.id p.2.toStr else acc

/-- Method `_check_and_send_reminders` (`reminder.py` lines 53-77): fetch the due
reminders once, then process them in order, isolating each item's dispatch
failure. -/
def check_and_send_reminders (sendOk : Nat → Bool) (db : DB) (now : ℚ) : DB :=
  (get_schedules_for_reminder db now).foldl (cycleStep sendOk) db

/-- One iteration of `_check_loop` (`reminder.py` lines 45-51): run a cycle;
`cycle db = none` models the cycle raising, in which case the `except`
logs the error and the loop keeps the previous state and continues. -/
def checkLoopStep (cycle : DB → Option DB) (db : DB) : DB :=
  (cycle db).getD db

/-- Method `_check_loop` running `n` cycles: every iteration runs regardless of
earlier cycles' errors. -/
def checkLoop (cycle : DB → Option DB) : Nat → DB → DB
  | 0, db => db
  | n + 1, db => checkLoop cycle n (checkLoopStep cycle db)

/-- The operations of the store and scheduler, for invariants quantified
over arbitrary operation sequences. -/
inductive DbOp where
  | add (uid title : String) (event_time now : ℚ)
  | list (uid : String) (start_time end_time : Option ℚ)
  | softDelete (sid : Nat) (uid : String)
  | candidates (now : ℚ)
  | mark (sid : Nat) (rtype : String)
  | cycle (sendOk : Nat → Bool) (now : ℚ)

/-- State effect of each operation (queries leave the state unchanged). -/
def applyOp (db : DB) : DbOp → DB
  | .add uid title et now => (add_schedule db uid title et now).2
  | .list _ _ _ => db
  | .softDelete sid uid => (delete_schedule db sid uid).2
  | .candidates _ => db
  | .mark sid rtype => mark_as_notified db sid rtype
  | .cycle sendOk now => check_and_send_reminders sendOk db now

/-- Run a sequence of operations. -/
def applyOps (db : DB) (ops : List DbOp) : DB :=
  ops.foldl applyOp db

/-- Statement that event `i` has threshold `t` in its notified set. -/
def hasFlagged (db : DB) (i : Nat) (t : ReminderType) : Prop :=
  ∃ r ∈ db.rows, r.id = i ∧ r.flagOf t = true

/-- Modelled from the spec: the threshold table of §4.2, in priority order
1day → 1hour → 15min, with the inclusive windows in minutes until the
event. -/
def thresholdTable : List (ReminderType × ℚ × ℚ) :=
  [(.oneDay, 1410, 1470), (.oneHour, 55, 65), (.fifteenMin, 13, 17)]

/-- Modelled from the spec: select the first threshold, in table order,
whose flag is unset and whose inclusive window contains `minutesUntil`. -/
def evalRowSpec (notified : ReminderType → Bool) (minutesUntil : ℚ) : Option ReminderType :=
  (thresholdTable.find? (fun p =>
    !notified p.1 && (decide (p.2.1 ≤ minutesUntil) && decide (minutesUntil ≤ p.2.2)))).map
    (fun p => p.1)

/-- The inclusive window of a threshold. -/
def windowOf : ReminderType → ℚ × ℚ
  | .oneDay => (1410, 1470)
  | .oneHour => (55, 65)
  | .fifteenMin => (13, 17)

/-- Predicate: `minutesUntil` lies inside the threshold's inclusive window. -/
def windowMatch (t : ReminderType) (d : ℚ) : Prop :=
  (windowOf t).1 ≤ d ∧ d ≤ (windowOf t).2

/-- An event at `now + d` minutes with empty notified set. -/
def mkEvent (d : ℚ) : ScheduleRow :=
  { id := 1, user_id := "u", title := "t", event_time := d, created_at := 0,
    is_notified_1day := false, is_notified_1hour := false,
    is_notified_15min := false, is_deleted := false }

def dbOneHour : DB := { rows := [mkEvent 60], next_id := 2 }

def dbFlagged : DB := { rows := [setFlag .oneHour (mkEvent 60)], next_id := 2 }

def dbSoftDeletedMeeting : DB :=
  (delete_schedule (add_schedule { rows := [], next_id := 1 } "u" "meeting" 100 0).2 1 "u").2

def preservesFlags (db db' : DB) : Prop :=
  ∀ (i : Nat) (t : ReminderType), hasFlagged db i t → hasFlagged db' i t

def rowKeeps (f : ScheduleRow → ScheduleRow) : Prop :=
  ∀ r : ScheduleRow, (f r).id = r.id ∧ ∀ t, r.flagOf t = true → (f r).flagOf t = true

def mkEvent2 : ScheduleRow := { mkEvent 16 with id := 2, title := "t2" }

def dbTwo : DB := { rows := [mkEvent 60, mkEvent2], next_id := 3 }

def entry2 : ScheduleEntry := { id := 2, title := "t2", event_time := 16, created_at := 0 }

def fillerRow (i : Nat) : ScheduleRow :=
  { id := i + 1, user_id := "u", title := "t" ++ toString i, event_time := (i : ℚ),
    created_at := 0, is_notified_1day := false, is_notified_1hour := false,
    is_notified_15min := false, is_deleted := false }

def dbFifty : DB := { rows := (List.range 50).map fillerRow, next_id := 51 }

def dbFiftyOne : DB := (add_schedule dbFifty "u" "new" 50 0).2

def entry0 : ScheduleEntry := { id := 1, title := "t0", event_time := 0, created_at := 0 }

def row51 : ScheduleRow :=
  { id := 51, user_id := "u", title := "new", event_time := 50, created_at := 0,
    is_notified_1day := false, is_notified_1hour := false, is_notified_15min := false,
    is_deleted := false }

theorem evalRow_eq_spec (now : ℚ) (r : ScheduleRow) :
    evalRow now r = evalRowSpec r.flagOf (r.event_time - now) := by
  obtain ⟨i, u, ti, et, ca, f1, f2, f3, d⟩ := r
  simp only [evalRow, evalRowSpec, thresholdTable, ScheduleRow.flagOf, List.find?,
    Prod.fst, Prod.snd]
  generalize (!f1 && (decide ((1410:ℚ) ≤ et - now) && decide (et - now ≤ 1470))) = b1
  generalize (!f2 && (decide ((55:ℚ) ≤ et - now) && decide (et - now ≤ 65))) = b2
  generalize (!f3 && (decide ((13:ℚ) ≤ et - now) && decide (et - now ≤ 17))) = b3
  cases b1 <;> cases b2 <;> cases b3 <;> rfl

theorem mem_candidateRows (db : DB) (now : ℚ) (r : ScheduleRow) :
    r ∈ candidateRows db now ↔ r ∈ db.rows ∧ r.is_deleted = false ∧ now < r.event_time := by
  simp [candidateRows, List.mem_filter]

theorem mem_reminders_iff (db : DB) (now : ℚ) (p : ScheduleRow × ReminderType) :
    p ∈ get_schedules_for_reminder db now ↔
      p.1 ∈ db.rows ∧ p.1.is_deleted = false ∧ now < p.1.event_time ∧
        evalRow now p.1 = some p.2 := by
  obtain ⟨r, t⟩ := p
  simp only [get_schedules_for_reminder, List.mem_filterMap, Option.map_eq_some',
    Prod.mk.injEq]
  constructor
  · rintro ⟨a, ha, t', ht', rfl, rfl⟩
    have := (mem_candidateRows db now a).mp ha
    exact ⟨this.1, this.2.1, this.2.2, ht'⟩
  · rintro ⟨h1, h2, h3, h4⟩
    exact ⟨r, (mem_candidateRows db now r).mpr ⟨h1, h2, h3⟩, t, h4, rfl, rfl⟩

theorem evalRow_some_flag_window (now : ℚ) (r : ScheduleRow) (t : ReminderType) :
    evalRow now r = some t →
      r.flagOf t = false ∧ windowMatch t (r.event_time - now) := by
  unfold evalRow
  intro h
  dsimp only at h
  split_ifs at h with h1 h2 h3 <;> (try injection h with h) <;> (try subst h) <;>
    simp_all [windowMatch, windowOf, ScheduleRow.flagOf]

theorem evalRow_of_window (now : ℚ) (r : ScheduleRow) (t : ReminderType)
    (hflag : r.flagOf t = false) (hw : windowMatch t (r.event_time - now)) :
    evalRow now r = some t := by
  obtain ⟨hlo, hhi⟩ := hw
  cases t
  case oneDay =>
    simp only [windowOf] at hlo hhi
    simp only [ScheduleRow.flagOf] at hflag
    simp [evalRow, hflag, hlo, hhi]
  case oneHour =>
    simp only [windowOf] at hlo hhi
    simp only [ScheduleRow.flagOf] at hflag
    have hno : ¬((1410:ℚ) ≤ r.event_time - now) := by linarith
    simp [evalRow, hflag, hlo, hhi, hno]
  case fifteenMin =>
    simp only [windowOf] at hlo hhi
    simp only [ScheduleRow.flagOf] at hflag
    have hno1 : ¬((1410:ℚ) ≤ r.event_time - now) := by linarith
    have hno2 : ¬((55:ℚ) ≤ r.event_time - now) := by linarith
    simp [evalRow, hflag, hlo, hhi, hno1, hno2]

/-- Claim C1: for every event strictly in the future and any flag set, the per-row
Threshold Evaluator computes the minute difference and selects at most one threshold,
checking 1day, then 1hour, then 15min, picking the first whose flag is unset and whose
inclusive window ([1410,1470], [55,65], [13,17] minutes) matches, and none otherwise;
in particular now+1410min yields OneDay, now+60min yields OneHour, now+16min yields
FifteenMin, and now+30min yields none (with empty notified flags). -/
theorem threshold_evaluator_first_match :
    (∀ (now : ℚ) (r : ScheduleRow), now < r.event_time →
        evalRow now r = evalRowSpec r.flagOf (r.event_time - now))
    ∧ evalRow 0 (mkEvent 1410) = some .oneDay
    ∧ evalRow 0 (mkEvent 60) = some .oneHour
    ∧ evalRow 0 (mkEvent 16) = some .fifteenMin
    ∧ evalRow 0 (mkEvent 30) = none :=
  ⟨fun now r _ => evalRow_eq_spec now r,
   by with_unfolding_all rfl, by with_unfolding_all rfl,
   by with_unfolding_all rfl, by with_unfolding_all rfl⟩

/-- Witness for C1: the evaluator agrees with the spec-side selector at the concrete
event 1410 minutes ahead of now = 0. -/
theorem threshold_evaluator_first_match_witness :
    (0:ℚ) < (mkEvent 1410).event_time ∧
      evalRow 0 (mkEvent 1410) = evalRowSpec (mkEvent 1410).flagOf ((mkEvent 1410).event_time - 0) :=
  ⟨by with_unfolding_all decide,
   threshold_evaluator_first_match.1 0 (mkEvent 1410) (by with_unfolding_all decide)⟩

/-- Claim C5: the rows scanned by candidatesForReminder are exactly the non-deleted
events with eventTime strictly after now; deleted or already-started events never
appear among the candidates, hence never among the emitted reminders either. -/
theorem candidates_exactly_nondeleted_future :
    (∀ (db : DB) (now : ℚ) (r : ScheduleRow),
        r ∈ candidateRows db now ↔ r ∈ db.rows ∧ r.is_deleted = false ∧ now < r.event_time)
    ∧ ∀ (db : DB) (now : ℚ) (p : ScheduleRow × ReminderType),
        p ∈ get_schedules_for_reminder db now →
          p.1 ∈ db.rows ∧ p.1.is_deleted = false ∧ now < p.1.event_time :=
  ⟨mem_candidateRows, fun db now p hp =>
    have h := (mem_reminders_iff db now p).mp hp
    ⟨h.1, h.2.1, h.2.2.1⟩⟩

/-- Witness for C5: in a one-row store with an event 60 minutes ahead, the emitted
reminder's row is a non-deleted strictly-future row of the store. -/
theorem candidates_exactly_nondeleted_future_witness :
    (mkEvent 60, ReminderType.oneHour) ∈ get_schedules_for_reminder dbOneHour 0 ∧
      mkEvent 60 ∈ dbOneHour.rows ∧ (mkEvent 60).is_deleted = false ∧
        (0:ℚ) < (mkEvent 60).event_time := by
  have hlist : get_schedules_for_reminder dbOneHour 0 = [(mkEvent 60, ReminderType.oneHour)] := by
    with_unfolding_all rfl
  have hmem : (mkEvent 60, ReminderType.oneHour) ∈ get_schedules_for_reminder dbOneHour 0 := by
    rw [hlist]
    exact List.mem_singleton.mpr rfl
  exact ⟨hmem, candidates_exactly_nondeleted_future.2 dbOneHour 0 _ hmem⟩

theorem setFlag_id (t : ReminderType) (r : ScheduleRow) : (setFlag t r).id = r.id := by
  cases t <;> rfl

theorem setFlag_idem (t : ReminderType) (r : ScheduleRow) :
    setFlag t (setFlag t r) = setFlag t r := by
  cases t <;> rfl

theorem setFlag_of_flag (t : ReminderType) (r : ScheduleRow) (h : r.flagOf t = true) :
    setFlag t r = r := by
  cases t <;> (simp only [ScheduleRow.flagOf] at h; cases r; simp_all [setFlag])

theorem markRow_idem (sid : Nat) (t : ReminderType) (r : ScheduleRow) :
    markRow sid t (markRow sid t r) = markRow sid t r := by
  by_cases h : (r.id == sid) = true
  · simp [markRow, h, setFlag_id, setFlag_idem]
  · simp [markRow, h]

theorem column_map_toStr (t : ReminderType) : column_map t.toStr = some t := by
  cases t <;> rfl

theorem mark_as_notified_valid (db : DB) (sid : Nat) (t : ReminderType) :
    mark_as_notified db sid t.toStr = { db with rows := db.rows.map (markRow sid t) } := by
  rw [mark_as_notified, column_map_toStr]

/-- Claim C7: markNotified is idempotent — marking twice equals marking once, it is a
no-op when the threshold is already set on the event, and a subsequent evaluation
pass never re-fires a threshold whose flag is set. -/
theorem mark_notified_idempotent :
    ∀ (db : DB) (sid : Nat) (t : ReminderType),
      mark_as_notified (mark_as_notified db sid t.toStr) sid t.toStr
          = mark_as_notified db sid t.toStr
      ∧ ((∀ r ∈ db.rows, r.id = sid → r.flagOf t = true) →
          mark_as_notified db sid t.toStr = db)
      ∧ ∀ (now : ℚ) (r : ScheduleRow), r.flagOf t = true → evalRow now r ≠ some t := by
  intro db sid t
  refine ⟨?_, ?_, ?_⟩
  · rw [mark_as_notified_valid, mark_as_notified_valid]
    dsimp only
    simp only [List.map_map]
    congr 1
    exact List.map_congr_left (fun a _ => markRow_idem sid t a)
  · intro h
    rw [mark_as_notified_valid]
    have hfix : ∀ a ∈ db.rows, markRow sid t a = a := by
      intro a ha
      unfold markRow
      split
      · next hid => exact setFlag_of_flag t a (h a ha (by simpa using hid))
      · rfl
    rw [List.map_congr_left hfix, List.map_id']
  · intro now r hf h
    have h2 := (evalRow_some_flag_window now r t h).1
    rw [hf] at h2
    exact Bool.noConfusion h2

/-- Witness for C7: on a one-row store whose event already has OneHour marked,
re-marking is the identity and the evaluator does not re-fire OneHour. -/
theorem mark_notified_idempotent_witness :
    mark_as_notified (mark_as_notified dbFlagged 1 "1hour") 1 "1hour"
        = mark_as_notified dbFlagged 1 "1hour"
    ∧ mark_as_notified dbFlagged 1 "1hour" = dbFlagged
    ∧ evalRow 0 (setFlag .oneHour (mkEvent 60)) ≠ some .oneHour := by
  have h := mark_notified_idempotent dbFlagged 1 ReminderType.oneHour
  exact ⟨h.1, h.2.1 (by with_unfolding_all decide),
    h.2.2 0 (setFlag .oneHour (mkEvent 60)) (by with_unfolding_all decide)⟩

/-- Claim C2 (code bug at the failing input): after the only matching event has been
soft-deleted, no non-deleted duplicate exists, yet a repeated add with the same
(owner, eventTime, title) is rejected — the schema-level
UNIQUE(user_id, event_time, title) constraint covers soft-deleted rows too, so the
INSERT raises IntegrityError and the add returns the Duplicate message '行程已存在'
and leaves the store unchanged, contradicting the claim's "the repeated add
succeeds" (and the intent of the code's own duplicate check, which filters
`is_deleted = 0`). -/
theorem add_after_soft_delete_rejected :
    dbSoftDeletedMeeting.rows.countP (fun r =>
        r.user_id == "u" && decide (r.event_time = 100) && r.title == "meeting" &&
          !r.is_deleted) = 0
    ∧ (add_schedule dbSoftDeletedMeeting "u" "meeting" 100 0).1.1 = false
    ∧ (add_schedule dbSoftDeletedMeeting "u" "meeting" 100 0).1.2.2 = "行程已存在"
    ∧ (add_schedule dbSoftDeletedMeeting "u" "meeting" 100 0).2 = dbSoftDeletedMeeting := by
  with_unfolding_all decide

theorem setFlag_flag_mono (t t' : ReminderType) (r : ScheduleRow) (h : r.flagOf t' = true) :
    (setFlag t r).flagOf t' = true := by
  cases t <;> cases t' <;> simp_all [setFlag, ScheduleRow.flagOf]

theorem rowKeeps_markRow (sid : Nat) (t : ReminderType) : rowKeeps (markRow sid t) := by
  intro r
  constructor
  · unfold markRow; split
    · exact setFlag_id t r
    · rfl
  · intro t' h
    unfold markRow; split
    · exact setFlag_flag_mono t t' r h
    · exact h

theorem rowKeeps_delRow (sid : Nat) (uid : String) : rowKeeps (delRow sid uid) := by
  intro r
  constructor
  · unfold delRow; split <;> rfl
  · intro t h
    unfold delRow; split
    · cases t <;> simpa [ScheduleRow.flagOf] using h
    · exact h

theorem preservesFlags_map (db : DB) (f : ScheduleRow → ScheduleRow) (hf : rowKeeps f)
    (n : Nat) : preservesFlags db { rows := db.rows.map f, next_id := n } := by
  rintro i t ⟨r, hr, hid, hflag⟩
  exact ⟨f r, List.mem_map_of_mem f hr, (hf r).1.trans hid, (hf r).2 t hflag⟩

theorem preservesFlags_mark (db : DB) (sid : Nat) (rtype : String) :
    preservesFlags db (mark_as_notified db sid rtype) := by
  unfold mark_as_notified
  cases column_map rtype with
  | none => exact fun i t h => h
  | some t => exact preservesFlags_map db _ (rowKeeps_markRow sid t) db.next_id

theorem preservesFlags_cycleStep (db : DB) (sendOk : Nat → Bool)
    (p : ScheduleRow × ReminderType) : preservesFlags db (cycleStep sendOk db p) := by
  unfold cycleStep; split
  · exact preservesFlags_mark db p.1.id p.2.toStr
  · exact fun i t h => h

theorem preservesFlags_foldl (sendOk : Nat → Bool) (l : List (ScheduleRow × ReminderType)) :
    ∀ db : DB, preservesFlags db (l.foldl (cycleStep sendOk) db) := by
  induction l with
  | nil => exact fun db i t h => h
  | cons p l ih =>
    intro db i t h
    exact ih (cycleStep sendOk db p) i t (preservesFlags_cycleStep db sendOk p i t h)

theorem preservesFlags_applyOp (db : DB) (op : DbOp) : preservesFlags db (applyOp db op) := by
  cases op with
  | add uid title et now =>
    show preservesFlags db (add_schedule db uid title et now).2
    unfold add_schedule
    split
    · exact fun i t h => h
    · split
      · exact fun i t h => h
      · rintro i t ⟨r, hr, hid, hflag⟩
        exact ⟨r, List.mem_append_left _ hr, hid, hflag⟩
  | list uid s e => exact fun i t h => h
  | candidates now => exact fun i t h => h
  | softDelete sid uid =>
    show preservesFlags db (delete_schedule db sid uid).2
    unfold delete_schedule
    split
    · exact preservesFlags_map db _ (rowKeeps_delRow sid uid) db.next_id
    · exact fun i t h => h
  | mark sid rtype => exact preservesFlags_mark db sid rtype
  | cycle sendOk now => exact preservesFlags_foldl sendOk _ db

theorem preservesFlags_applyOps (ops : List DbOp) :
    ∀ db : DB, preservesFlags db (applyOps db ops) := by
  induction ops with
  | nil => exact fun db i t h => h
  | cons op ops ih =>
    intro db i t h
    exact ih (applyOp db op) i t (preservesFlags_applyOp db op i t h)

/-- Claim C6: the notified set is monotonically growing — over any sequence of store
and scheduler operations (add, list, softDelete, candidates, markNotified, scheduler
cycles), once a threshold is flagged on an event it is never cleared. -/
theorem notified_monotone :
    ∀ (ops : List DbOp) (db : DB) (i : Nat) (t : ReminderType),
      hasFlagged db i t → hasFlagged (applyOps db ops) i t :=
  fun ops db i t h => preservesFlags_applyOps ops db i t h

/-- Witness for C6: a flagged event stays flagged across a soft delete, a mark of a
different threshold, a full scheduler cycle, an insert, and two queries. -/
theorem notified_monotone_witness :
    hasFlagged dbFlagged 1 .oneHour
    ∧ hasFlagged
        (applyOps dbFlagged
          [.softDelete 1 "u", .mark 1 "1day", .cycle (fun _ => true) 0,
           .add "u" "x" 999 0, .list "u" none none, .candidates 0]) 1 .oneHour :=
  ⟨by unfold hasFlagged; with_unfolding_all decide,
   notified_monotone
     [.softDelete 1 "u", .mark 1 "1day", .cycle (fun _ => true) 0,
      .add "u" "x" 999 0, .list "u" none none, .candidates 0]
     dbFlagged 1 .oneHour (by unfold hasFlagged; with_unfolding_all decide)⟩

theorem windowMatch_pos (t : ReminderType) (d : ℚ) (h : windowMatch t d) : 0 < d := by
  obtain ⟨hlo, _⟩ := h
  cases t <;> (simp only [windowOf] at hlo; linarith)

theorem setFlag_flag_self (t : ReminderType) (r : ScheduleRow) :
    (setFlag t r).flagOf t = true := by
  cases t <;> rfl

theorem markRow_ne (sid : Nat) (t : ReminderType) (r : ScheduleRow) (h : r.id ≠ sid) :
    markRow sid t r = r := by
  unfold markRow
  rw [if_neg]
  simpa using h

theorem mem_mark_of_ne (db : DB) (sid : Nat) (s : String) (r : ScheduleRow)
    (hr : r ∈ db.rows) (h : r.id ≠ sid) : r ∈ (mark_as_notified db sid s).rows := by
  unfold mark_as_notified
  cases column_map s with
  | none => exact hr
  | some t =>
    have : r = markRow sid t r := (markRow_ne sid t r h).symm
    rw [this]
    exact List.mem_map_of_mem _ hr

theorem mark_hasId (db : DB) (sid : Nat) (s : String) (i : Nat)
    (h : ∃ r ∈ db.rows, r.id = i) : ∃ r ∈ (mark_as_notified db sid s).rows, r.id = i := by
  obtain ⟨r, hr, hid⟩ := h
  unfold mark_as_notified
  cases column_map s with
  | none => exact ⟨r, hr, hid⟩
  | some t =>
    refine ⟨markRow sid t r, List.mem_map_of_mem _ hr, ?_⟩
    rw [(rowKeeps_markRow sid t r).1, hid]

theorem foldl_cycleStep_hasId (sendOk : Nat → Bool) (l : List (ScheduleRow × ReminderType)) :
    ∀ (db : DB) (i : Nat), (∃ r ∈ db.rows, r.id = i) →
      ∃ r ∈ (l.foldl (cycleStep sendOk) db).rows, r.id = i := by
  induction l with
  | nil => exact fun db i h => h
  | cons q l ih =>
    intro db i h
    refine ih (cycleStep sendOk db q) i ?_
    unfold cycleStep
    split
    · exact mark_hasId db q.1.id q.2.toStr i h
    · exact h

theorem foldl_cycleStep_mem (sendOk : Nat → Bool) (l : List (ScheduleRow × ReminderType)) :
    ∀ (db : DB) (r : ScheduleRow), r ∈ db.rows →
      (∀ q ∈ l, sendOk q.1.id = true → q.1.id ≠ r.id) →
      r ∈ (l.foldl (cycleStep sendOk) db).rows := by
  induction l with
  | nil => exact fun db r hr _ => hr
  | cons q l ih =>
    intro db r hr hq
    refine ih (cycleStep sendOk db q) r ?_ (fun q' hq' => hq q' (List.mem_cons_of_mem q hq'))
    unfold cycleStep
    split
    · next hok =>
      exact mem_mark_of_ne db q.1.id q.2.toStr r hr
        (fun hid => hq q (List.mem_cons_self q l) hok hid.symm)
    · exact hr

theorem mark_sets_flag (db : DB) (sid : Nat) (t : ReminderType)
    (h : ∃ r ∈ db.rows, r.id = sid) : hasFlagged (mark_as_notified db sid t.toStr) sid t := by
  obtain ⟨r, hr, hid⟩ := h
  rw [mark_as_notified_valid]
  refine ⟨markRow sid t r, List.mem_map_of_mem _ hr, ?_, ?_⟩
  · rw [(rowKeeps_markRow sid t r).1, hid]
  · have hcond : (r.id == sid) = true := by simp [hid]
    unfold markRow
    rw [if_pos hcond]
    exact setFlag_flag_self t r

theorem reminders_id_inj (db : DB) (now : ℚ)
    (hnd : (db.rows.map ScheduleRow.id).Nodup)
    (p q : ScheduleRow × ReminderType)
    (hp : p ∈ get_schedules_for_reminder db now)
    (hq : q ∈ get_schedules_for_reminder db now)
    (hid : p.1.id = q.1.id) : p = q := by
  have hp' := (mem_reminders_iff db now p).mp hp
  have hq' := (mem_reminders_iff db now q).mp hq
  have hrow : p.1 = q.1 :=
    List.inj_on_of_nodup_map hnd hp'.1 hq'.1 hid
  have hsome : some p.2 = some q.2 := by
    rw [← hp'.2.2.2, ← hq'.2.2.2, hrow]
  exact Prod.ext hrow (Option.some.inj hsome)

/-- Claim C3: if the push for a due (event, threshold) pair fails, markNotified is
not called for that pair — the event's row (its notified flags included) survives
the cycle unchanged — and on any later cycle whose evaluation instant is still
inside the threshold's window, the same pair is computed as due again. -/
theorem dispatch_failure_retried :
    ∀ (db : DB) (now : ℚ) (sendOk : Nat → Bool) (p : ScheduleRow × ReminderType),
      (db.rows.map ScheduleRow.id).Nodup →
      p ∈ get_schedules_for_reminder db now →
      sendOk p.1.id = false →
      p.1 ∈ (check_and_send_reminders sendOk db now).rows
      ∧ ∀ now₂ : ℚ, windowMatch p.2 (p.1.event_time - now₂) →
          (p.1, p.2) ∈ get_schedules_for_reminder (check_and_send_reminders sendOk db now) now₂ := by
  intro db now sendOk p hnd hp hfail
  have hp' := (mem_reminders_iff db now p).mp hp
  have hne : ∀ q ∈ get_schedules_for_reminder db now, sendOk q.1.id = true → q.1.id ≠ p.1.id := by
    intro q hq hok hid
    have : q = p := reminders_id_inj db now hnd q p hq hp hid
    rw [this, hfail] at hok
    exact Bool.noConfusion hok
  have hmem : p.1 ∈ (check_and_send_reminders sendOk db now).rows :=
    foldl_cycleStep_mem sendOk (get_schedules_for_reminder db now) db p.1 hp'.1 hne
  refine ⟨hmem, ?_⟩
  intro now₂ hw
  have hflag : p.1.flagOf p.2 = false := (evalRow_some_flag_window now p.1 p.2 hp'.2.2.2).1
  have heval : evalRow now₂ p.1 = some p.2 := evalRow_of_window now₂ p.1 p.2 hflag hw
  have hfut : now₂ < p.1.event_time := by
    have := windowMatch_pos p.2 (p.1.event_time - now₂) hw
    linarith
  exact (mem_reminders_iff _ now₂ (p.1, p.2)).mpr ⟨hmem, hp'.2.1, hfut, heval⟩

/-- Witness for C3: a one-row store with the event 60 minutes out, a dispatcher that
always fails: the OneHour pair is due, survives the cycle, and is due again at one
minute later, still inside the window. -/
theorem dispatch_failure_retried_witness :
    (dbOneHour.rows.map ScheduleRow.id).Nodup
    ∧ (mkEvent 60, ReminderType.oneHour) ∈ get_schedules_for_reminder dbOneHour 0
    ∧ (fun _ : Nat => false) (mkEvent 60).id = false
    ∧ mkEvent 60 ∈ (check_and_send_reminders (fun _ => false) dbOneHour 0).rows
    ∧ (mkEvent 60, ReminderType.oneHour) ∈
        get_schedules_for_reminder (check_and_send_reminders (fun _ => false) dbOneHour 0) 1 := by
  have hnd : (dbOneHour.rows.map ScheduleRow.id).Nodup := by with_unfolding_all decide
  have hmem : (mkEvent 60, ReminderType.oneHour) ∈ get_schedules_for_reminder dbOneHour 0 := by
    have hlist : get_schedules_for_reminder dbOneHour 0 = [(mkEvent 60, ReminderType.oneHour)] := by
      with_unfolding_all rfl
    rw [hlist]
    exact List.mem_singleton.mpr rfl
  have h := dispatch_failure_retried dbOneHour 0 (fun _ => false) (mkEvent 60, ReminderType.oneHour)
    hnd hmem rfl
  refine ⟨hnd, hmem, rfl, h.1, h.2 1 ?_⟩
  constructor <;> with_unfolding_all decide

/-- Claim C4: within one scheduler cycle a dispatch failure for one pair does not
prevent the dispatch and markNotified of the other due pairs — every pair whose own
push succeeds ends the cycle with its threshold flagged, whatever the other pairs
do — and an error in a cycle never terminates the check loop: the failed cycle is
caught and the loop proceeds to the next cycle. -/
theorem cycle_isolation_and_loop_continues :
    (∀ (db : DB) (now : ℚ) (sendOk : Nat → Bool) (q : ScheduleRow × ReminderType),
        q ∈ get_schedules_for_reminder db now →
        sendOk q.1.id = true →
        hasFlagged (check_and_send_reminders sendOk db now) q.1.id q.2)
    ∧ ∀ (cycle : DB → Option DB) (n : Nat) (db : DB),
        cycle db = none → checkLoop cycle (n + 1) db = checkLoop cycle n db := by
  constructor
  · intro db now sendOk q hq hok
    obtain ⟨l₁, l₂, hsplit⟩ := List.append_of_mem hq
    have hid : ∃ r ∈ db.rows, r.id = q.1.id :=
      ⟨q.1, ((mem_reminders_iff db now q).mp hq).1, rfl⟩
    unfold check_and_send_reminders
    rw [hsplit, List.foldl_append]
    have hid₁ := foldl_cycleStep_hasId sendOk l₁ db q.1.id hid
    show hasFlagged ((q :: l₂).foldl (cycleStep sendOk)
      (l₁.foldl (cycleStep sendOk) db)) q.1.id q.2
    have hstep : cycleStep sendOk (l₁.foldl (cycleStep sendOk) db) q
        = mark_as_notified (l₁.foldl (cycleStep sendOk) db) q.1.id q.2.toStr := by
      simp [cycleStep, hok]
    show hasFlagged (l₂.foldl (cycleStep sendOk)
      (cycleStep sendOk (l₁.foldl (cycleStep sendOk) db) q)) q.1.id q.2
    rw [hstep]
    exact preservesFlags_foldl sendOk l₂ _ q.1.id q.2
      (mark_sets_flag (l₁.foldl (cycleStep sendOk) db) q.1.id q.2 hid₁)
  · intro c n db h
    show checkLoop c n (checkLoopStep c db) = checkLoop c n db
    rw [checkLoopStep, h]
    rfl

/-- Witness for C4: with two due pairs in one cycle and a dispatcher that fails for
event 1 but succeeds for event 2, event 2 still ends the cycle flagged; and a cycle
that errors does not change how many further cycles the loop runs. -/
theorem cycle_isolation_and_loop_continues_witness :
    (mkEvent2, ReminderType.fifteenMin) ∈ get_schedules_for_reminder dbTwo 0
    ∧ (fun i : Nat => i == 2) (mkEvent2).id = true
    ∧ hasFlagged (check_and_send_reminders (fun i => i == 2) dbTwo 0) 2 ReminderType.fifteenMin
    ∧ (fun _ : DB => (none : Option DB)) dbTwo = none
    ∧ checkLoop (fun _ => none) 1 dbTwo = checkLoop (fun _ => none) 0 dbTwo := by
  have hmem : (mkEvent2, ReminderType.fifteenMin) ∈ get_schedules_for_reminder dbTwo 0 := by
    have hlist : get_schedules_for_reminder dbTwo 0
        = [(mkEvent2, ReminderType.fifteenMin), (mkEvent 60, ReminderType.oneHour)] := by
      with_unfolding_all rfl
    rw [hlist]
    exact List.mem_cons_self _ _
  refine ⟨hmem, rfl, ?_, rfl, ?_⟩
  · exact cycle_isolation_and_loop_continues.1 dbTwo 0 (fun i => i == 2)
      (mkEvent2, ReminderType.fifteenMin) hmem rfl
  · exact cycle_isolation_and_loop_continues.2 (fun _ => none) 0 dbTwo rfl

theorem delete_success_iff (db : DB) (sid : Nat) (uid : String) :
    (delete_schedule db sid uid).1.1 = db.rows.any (delMatch sid uid) := by
  unfold delete_schedule
  split <;> simp_all

theorem inWindow_parts (uid : String) (s e : Option ℚ) (r : ScheduleRow)
    (h : inWindow uid s e r = true) : r.user_id = uid ∧ r.is_deleted = false := by
  unfold inWindow at h
  simp only [Bool.and_eq_true, beq_iff_eq, Bool.not_eq_true'] at h
  exact ⟨h.1.1.1, h.1.1.2⟩

theorem mem_get_schedules (db : DB) (uid : String) (s e : Option ℚ) (lim : Nat)
    (entry : ScheduleEntry) (h : entry ∈ get_schedules db uid s e lim) :
    ∃ r ∈ db.rows, inWindow uid s e r = true ∧ entry.id = r.id := by
  unfold get_schedules at h
  obtain ⟨r, hr, rfl⟩ := List.mem_map.mp h
  have hr' : r ∈ sortedWindowRows db uid s e := List.take_subset _ _ hr
  have hr'' : r ∈ windowRows db uid s e := by
    unfold sortedWindowRows at hr'
    exact List.mem_mergeSort.mp hr'
  unfold windowRows at hr''
  exact ⟨r, (List.mem_filter.mp hr'').1, (List.mem_filter.mp hr'').2, rfl⟩

theorem delete_deletes (db : DB) (sid : Nat) (uid : String) :
    ∀ r' ∈ (delete_schedule db sid uid).2.rows, r'.id = sid → r'.user_id = uid →
      r'.is_deleted = true := by
  intro r' hr' hid huid
  unfold delete_schedule at hr'
  split at hr'
  · next hany =>
    obtain ⟨r, hr, hw⟩ := List.mem_map.mp hr'
    unfold delRow at hw
    by_cases hm : delMatch sid uid r = true
    · rw [if_pos hm] at hw
      rw [← hw]
    · rw [if_neg hm] at hw
      subst hw
      unfold delMatch at hm
      simp only [Bool.and_eq_true, beq_iff_eq, Bool.not_eq_true'] at hm
      by_contra hdel
      exact hm ⟨⟨hid, huid⟩, Bool.not_eq_true _ ▸ hdel⟩
  · next hany =>
    rw [Bool.not_eq_true, List.any_eq_false] at hany
    have hm := hany r' hr'
    unfold delMatch at hm
    simp only [Bool.and_eq_true, beq_iff_eq, Bool.not_eq_true', not_and] at hm
    by_contra hdel
    exact absurd (hm ⟨hid, huid⟩) (by simp [Bool.not_eq_true _ ▸ hdel])

/-- Claim C9: softDelete returns NotFound exactly when no non-deleted event with that
id owned by the caller exists (foreign-owned and already-deleted ids included); the
record count is unchanged by the call (soft delete, not physical); and after a
successful delete the event's id appears in no later listByWindow result and in no
later reminder-candidate set. -/
theorem soft_delete_not_found_and_hides :
    ∀ (db : DB) (sid : Nat) (uid : String),
      ((delete_schedule db sid uid).1.1 = false ↔
        ¬ ∃ r ∈ db.rows, r.id = sid ∧ r.user_id = uid ∧ r.is_deleted = false)
      ∧ (delete_schedule db sid uid).2.rows.length = db.rows.length
      ∧ ((db.rows.map ScheduleRow.id).Nodup →
          (delete_schedule db sid uid).1.1 = true →
          (∀ (s e : Option ℚ) (lim : Nat) (entry : ScheduleEntry),
              entry ∈ get_schedules (delete_schedule db sid uid).2 uid s e lim →
              entry.id ≠ sid)
          ∧ ∀ (now : ℚ) (r' : ScheduleRow),
              r' ∈ candidateRows (delete_schedule db sid uid).2 now → r'.id ≠ sid) := by
  intro db sid uid
  refine ⟨?_, ?_, ?_⟩
  · rw [delete_success_iff db sid uid]
    simp [List.any_eq_false, delMatch]
  · unfold delete_schedule
    split <;> simp
  · intro hnd hsucc
    constructor
    · intro s e lim entry hentry
      intro heq
      obtain ⟨r, hr, hwin, hid⟩ := mem_get_schedules _ uid s e lim entry hentry
      obtain ⟨huser, hdel⟩ := inWindow_parts uid s e r hwin
      have : r.is_deleted = true :=
        delete_deletes db sid uid r hr (heq ▸ hid.symm) huser
      rw [hdel] at this
      exact Bool.noConfusion this
    · intro now r' hr' heq
      have hc := (mem_candidateRows _ now r').mp hr'
      have hany : db.rows.any (delMatch sid uid) = true := by
        rw [← delete_success_iff db sid uid]
        exact hsucc
      obtain ⟨r₀, hr₀, hm₀⟩ := List.any_eq_true.mp hany
      unfold delMatch at hm₀
      simp only [Bool.and_eq_true, beq_iff_eq, Bool.not_eq_true'] at hm₀
      have hrows : (delete_schedule db sid uid).2.rows = db.rows.map (delRow sid uid) := by
        unfold delete_schedule
        rw [if_pos hany]
      rw [hrows] at hc
      obtain ⟨r, hr, hw⟩ := List.mem_map.mp hc.1
      unfold delRow at hw
      by_cases hm : delMatch sid uid r = true
      · rw [if_pos hm] at hw
        have : r'.is_deleted = true := by rw [← hw]
        rw [hc.2.1] at this
        exact Bool.noConfusion this
      · rw [if_neg hm] at hw
        subst hw
        unfold delMatch at hm
        simp only [Bool.and_eq_true, beq_iff_eq, Bool.not_eq_true', not_and] at hm
        have huser : r.user_id ≠ uid := by
          intro hu
          exact absurd (hm ⟨heq, hu⟩) (by simp [hc.2.1])
        have : r = r₀ :=
          List.inj_on_of_nodup_map hnd hr hr₀ (by rw [heq, hm₀.1.1])
        rw [this] at huser
        exact huser hm₀.1.2

/-- Witness for C9: deleting event 1 of a two-event store succeeds, keeps the record
count at 2, and the surviving listed entry and surviving candidate both have id ≠ 1. -/
theorem soft_delete_not_found_and_hides_witness :
    (delete_schedule dbTwo 1 "u").1.1 = true
    ∧ (delete_schedule dbTwo 1 "u").2.rows.length = dbTwo.rows.length
    ∧ entry2 ∈ get_schedules (delete_schedule dbTwo 1 "u").2 "u" none none 50
    ∧ entry2.id ≠ 1
    ∧ mkEvent2 ∈ candidateRows (delete_schedule dbTwo 1 "u").2 0
    ∧ mkEvent2.id ≠ 1 := by
  have h := soft_delete_not_found_and_hides dbTwo 1 "u"
  have hsucc : (delete_schedule dbTwo 1 "u").1.1 = true := by with_unfolding_all rfl
  have hnd : (dbTwo.rows.map ScheduleRow.id).Nodup := by with_unfolding_all decide
  have hconc := h.2.2 hnd hsucc
  have hmem : entry2 ∈ get_schedules (delete_schedule dbTwo 1 "u").2 "u" none none 50 := by
    with_unfolding_all decide
  have hmem' : mkEvent2 ∈ candidateRows (delete_schedule dbTwo 1 "u").2 0 := by
    with_unfolding_all decide
  exact ⟨hsucc, h.2.1, hmem, hconc.1 none none 50 entry2 hmem, hmem', hconc.2 0 mkEvent2 hmem'⟩

theorem add_success_rows (db : DB) (uid title : String) (ft now : ℚ)
    (h : (add_schedule db uid title ft now).1.1 = true) :
    db.rows.any (fun r =>
        r.user_id == uid && decide (r.event_time = ft) && r.title == title &&
          !r.is_deleted) = false
    ∧ (add_schedule db uid title ft now).2.rows = db.rows
        ++ [{ id := db.next_id, user_id := uid, title := title, event_time := ft,
              created_at := now, is_notified_1day := false, is_notified_1hour := false,
              is_notified_15min := false, is_deleted := false }] := by
  unfold add_schedule at h ⊢
  split at h
  · exact absurd h (by simp)
  · split at h
    · exact absurd h (by simp)
    · next h1 h2 =>
      refine ⟨by simpa using h1, ?_⟩
      rw [if_neg h1, if_neg h2]

/-- Claim C8 (amended): for every valid (owner, title, futureTime) and prior store in
which the add succeeds, add followed immediately by listByWindow over a window
containing futureTime returns exactly one entry matching the inserted title and time,
provided the owner had at most 49 events in that window beforehand (so the query's
LIMIT 50 does not truncate the result). -/
theorem add_then_list_roundtrip :
    ∀ (db : DB) (uid title : String) (ft now s e : ℚ),
      (add_schedule db uid title ft now).1.1 = true →
      s ≤ ft → ft ≤ e →
      (windowRows db uid (some s) (some e)).length ≤ 49 →
      (listByWindow (add_schedule db uid title ft now).2 uid (some s) (some e)).countP
        (fun entry => entry.title == title && decide (entry.event_time = ft)) = 1 := by
  intro db uid title ft now s e hsucc hs he hlen
  obtain ⟨hany, hrows⟩ := add_success_rows db uid title ft now hsucc
  rw [List.any_eq_false] at hany
  set newRow : ScheduleRow :=
    { id := db.next_id, user_id := uid, title := title, event_time := ft,
      created_at := now, is_notified_1day := false, is_notified_1hour := false,
      is_notified_15min := false, is_deleted := false } with hnew
  have hwin_new : inWindow uid (some s) (some e) newRow = true := by
    simp [inWindow, hnew, hs, he]
  have hwrows : windowRows (add_schedule db uid title ft now).2 uid (some s) (some e)
      = windowRows db uid (some s) (some e) ++ [newRow] := by
    unfold windowRows
    rw [hrows, List.filter_append]
    simp [hwin_new]
  have hsort_len :
      (sortedWindowRows (add_schedule db uid title ft now).2 uid (some s) (some e)).length
        ≤ 50 := by
    unfold sortedWindowRows
    rw [List.length_mergeSort, hwrows, List.length_append]
    simpa using hlen
  unfold listByWindow get_schedules
  rw [List.countP_map, List.take_of_length_le hsort_len]
  have hperm :
      List.Perm
        (sortedWindowRows (add_schedule db uid title ft now).2 uid (some s) (some e))
        (windowRows (add_schedule db uid title ft now).2 uid (some s) (some e)) :=
    List.mergeSort_perm _ _
  rw [hperm.countP_eq, hwrows, List.countP_append]
  have hzero : (windowRows db uid (some s) (some e)).countP
      (fun r => ((r.title == title) && decide (r.event_time = ft))) = 0 := by
    rw [List.countP_eq_zero]
    intro r hr hp
    unfold windowRows at hr
    have hr' := List.mem_filter.mp hr
    obtain ⟨huser, hdel⟩ := inWindow_parts uid (some s) (some e) r hr'.2
    simp only [Bool.and_eq_true, beq_iff_eq, decide_eq_true_eq] at hp
    exact absurd (by simp [huser, hdel, hp.1, hp.2] :
      (r.user_id == uid && decide (r.event_time = ft) && r.title == title &&
        !r.is_deleted) = true) (hany r hr'.1)
  have hone : ([newRow].countP
      (fun r => ((r.title == title) && decide (r.event_time = ft)))) = 1 := by
    simp [hnew]
  have hfinal : (windowRows db uid (some s) (some e)).countP
        (fun r => ((r.title == title) && decide (r.event_time = ft)))
      + ([newRow].countP (fun r => ((r.title == title) && decide (r.event_time = ft)))) = 1 := by
    rw [hzero, hone]
  exact hfinal

/-- Counterexample to C8 as stated: in a store holding 50 earlier events of the same
owner inside the window, the add of an event at time 50 succeeds and the window
[0, 100] spans it, yet the immediate listByWindow returns zero (not one) entries
matching the inserted title and time — the query's LIMIT 50 cuts it off. -/
theorem add_then_list_roundtrip_counterexample :
    (add_schedule dbFifty "u" "new" 50 0).1.1 = true
    ∧ ((0:ℚ) ≤ 50 ∧ (50:ℚ) ≤ 100)
    ∧ (listByWindow (add_schedule dbFifty "u" "new" 50 0).2 "u" (some 0) (some 100)).countP
        (fun entry => entry.title == "new" && decide (entry.event_time = 50)) = 0 := by
  with_unfolding_all decide

/-- Witness for C8 (amended): from the empty store, adding an event at time 10 and
listing the window [0, 100] yields exactly one matching entry. -/
theorem add_then_list_roundtrip_witness :
    (add_schedule { rows := [], next_id := 1 } "u" "m" 10 0).1.1 = true
    ∧ (0:ℚ) ≤ 10 ∧ (10:ℚ) ≤ 100
    ∧ (windowRows { rows := [], next_id := 1 } "u" (some 0) (some 100)).length ≤ 49
    ∧ (listByWindow (add_schedule { rows := [], next_id := 1 } "u" "m" 10 0).2 "u"
        (some 0) (some 100)).countP
        (fun entry => entry.title == "m" && decide (entry.event_time = 10)) = 1 := by
  refine ⟨by with_unfolding_all rfl, by with_unfolding_all decide,
    by with_unfolding_all decide, by with_unfolding_all decide, ?_⟩
  exact add_then_list_roundtrip { rows := [], next_id := 1 } "u" "m" 10 0 0 100
    (by with_unfolding_all rfl) (by with_unfolding_all decide)
    (by with_unfolding_all decide) (by with_unfolding_all decide)

/-- Claim C10 (implicit LIMIT): get_schedules carries a default LIMIT of 50 — every
listByWindow result has at most 50 entries, its length is the minimum of 50 and the
number of matching rows, and whenever matching rows are cut off, every returned
entry's eventTime is at most every omitted row's eventTime (only the 50 earliest are
returned; later ones are silently omitted). -/
theorem list_limit_fifty :
    ∀ (db : DB) (uid : String) (s e : Option ℚ),
      (listByWindow db uid s e).length ≤ 50
      ∧ (listByWindow db uid s e).length = min 50 (windowRows db uid s e).length
      ∧ ∀ entry ∈ listByWindow db uid s e,
          ∀ r ∈ (sortedWindowRows db uid s e).drop 50, entry.event_time ≤ r.event_time := by
  intro db uid s e
  have hlen : (listByWindow db uid s e).length = min 50 (windowRows db uid s e).length := by
    unfold listByWindow get_schedules sortedWindowRows
    rw [List.length_map, List.length_take, List.length_mergeSort]
  refine ⟨by rw [hlen]; exact Nat.min_le_left _ _, hlen, ?_⟩
  intro entry hentry r hr
  have hsorted := @List.sorted_mergeSort ScheduleRow
    (fun a b => decide (a.event_time ≤ b.event_time))
    (fun a b c hab hbc => by
      simp only [decide_eq_true_eq] at *
      exact le_trans hab hbc)
    (fun a b => by
      simp only [Bool.or_eq_true, decide_eq_true_eq]
      exact le_total a.event_time b.event_time)
    (windowRows db uid s e)
  unfold listByWindow get_schedules at hentry
  obtain ⟨x, hx, rfl⟩ := List.mem_map.mp hentry
  have hpairwise : ((sortedWindowRows db uid s e).take 50
      ++ (sortedWindowRows db uid s e).drop 50).Pairwise
      (fun a b : ScheduleRow => decide (a.event_time ≤ b.event_time)) := by
    rw [List.take_append_drop]
    exact hsorted
  have hrel := (List.pairwise_append.mp hpairwise).2.2 x hx r hr
  simpa using hrel

/-- Witness for C10: with 51 events in the window, the first returned entry (time 0)
precedes the omitted 51st row (time 50). -/
theorem list_limit_fifty_witness :
    entry0 ∈ listByWindow dbFiftyOne "u" none none
    ∧ row51 ∈ (sortedWindowRows dbFiftyOne "u" none none).drop 50
    ∧ entry0.event_time ≤ row51.event_time :=
  ⟨by with_unfolding_all decide, by with_unfolding_all decide,
   (list_limit_fifty dbFiftyOne "u" none none).2.2 entry0 (by with_unfolding_all decide)
     row51 (by with_unfolding_all decide)⟩
